import Mathlib

/-!
Verification development for the sidekick browser-assistant core.

The definitions below are shallow embeddings of the JavaScript sources:
`src/scripts/modules/api.js` (response parser), `src/scripts/sidepanel.js`
(agent loop and tool dispatch), `src/scripts/service-worker.js` (tab message
router) and `src/scripts/contentScript.js` (element registry and action
executor).  JavaScript strings are modelled as Lean `String`, JSON values as
an explicit `JSVal` type, and the browser environment (model endpoint, tab
messaging, DOM) as explicit oracle parameters.
-/

/-- The opening curly brace character. -/
def lbrace : Char := Char.ofNat 123

/-- The closing curly brace character. -/
def rbrace : Char := Char.ofNat 125

/-- The backtick character used by fenced code blocks. -/
def btick : Char := Char.ofNat 96

/-- ASCII whitespace recognised by the JavaScript trimming and
whitespace-class operations used in the sources. -/
def isJsWs (c : Char) : Bool :=
  c.toNat = 32 || c.toNat = 9 || c.toNat = 10 || c.toNat = 13 ||
    c.toNat = 11 || c.toNat = 12

/-- Character list version of JavaScript `String.prototype.trim`. -/
def trimChars (cs : List Char) : List Char :=
  ((cs.dropWhile isJsWs).reverse.dropWhile isJsWs).reverse

/-- JavaScript `String.prototype.trim`. -/
def jsTrim (s : String) : String :=
  String.mk (trimChars s.data)

/-- JavaScript `String.prototype.toLowerCase` on a single character
(ASCII range, the only range exercised by the sources). -/
def lowerChar (c : Char) : Char :=
  if 65 ≤ c.toNat ∧ c.toNat ≤ 90 then Char.ofNat (c.toNat + 32) else c

/-- JavaScript `String.prototype.toLowerCase`. -/
def lowerStr (s : String) : String :=
  String.mk (s.data.map lowerChar)

/-- Boolean test that `pat` is a prefix of `l`. -/
def listPrefixOf : List Char → List Char → Bool
  | [], _ => true
  | _ :: _, [] => false
  | a :: as, b :: bs => a == b && listPrefixOf as bs

/-- Boolean test that `pat` occurs as a contiguous run inside `l`
(JavaScript `String.prototype.includes`). -/
def containsSub (pat : List Char) : List Char → Bool
  | [] => pat.isEmpty
  | c :: rest => listPrefixOf pat (c :: rest) || containsSub pat rest

/-- JavaScript `hay.includes(pat)`. -/
def strIncludes (hay pat : String) : Bool :=
  containsSub pat.data hay.data

/-- JavaScript values as produced by `JSON.parse` and passed between the
components, together with `undefined` for missing-property reads.  Numbers
are kept as an exact mantissa/decimal-exponent pair. -/
inductive JSVal : Type where
  | vUndefined : JSVal
  | vNull : JSVal
  | vBool : Bool → JSVal
  | vNum : Int → Int → JSVal
  | vStr : String → JSVal
  | vArr : List JSVal → JSVal
  | vObj : List (String × JSVal) → JSVal

/-- JavaScript property read `v[k]`: the last binding wins on duplicate
keys (matching assignment order in object literals), anything else gives
`undefined`. -/
def getProp : JSVal → String → JSVal
  | .vObj fs, k =>
    match fs.reverse.find? (fun e => e.1 == k) with
    | some e => e.2
    | none => .vUndefined
  | _, _ => .vUndefined

/-- `typeof v === "object" && v` is truthy: arrays and plain objects
qualify, `null` is excluded by truthiness. -/
def isObjLike : JSVal → Bool
  | .vObj _ => true
  | .vArr _ => true
  | _ => false

/-- A plain object: `typeof v === "object"`, not `null`, and not an
array (`!Array.isArray(v)`). -/
def isPlainObj : JSVal → Bool
  | .vObj _ => true
  | _ => false

/-- JavaScript truthiness of a value. -/
def jsTruthy : JSVal → Bool
  | .vUndefined => false
  | .vNull => false
  | .vBool b => b
  | .vNum m _ => m ≠ 0
  | .vStr s => s ≠ ""
  | .vArr _ => true
  | .vObj _ => true

/-- JSON whitespace accepted between tokens by `JSON.parse`. -/
def isJsonWs (c : Char) : Bool :=
  c == ' ' || c == '\t' || c == '\n' || c == '\r'

/-- Skip JSON inter-token whitespace. -/
def skipJsonWs (cs : List Char) : List Char :=
  cs.dropWhile isJsonWs

/-- Hexadecimal digit value for string `\u` escapes. -/
def hexVal (c : Char) : Option Nat :=
  if 48 ≤ c.toNat ∧ c.toNat ≤ 57 then some (c.toNat - 48)
  else if 97 ≤ c.toNat ∧ c.toNat ≤ 102 then some (c.toNat - 87)
  else if 65 ≤ c.toNat ∧ c.toNat ≤ 70 then some (c.toNat - 55)
  else none

/-- Body of a JSON string literal, after the opening quote: returns the
decoded string and the remaining input past the closing quote. -/
def parseJStringAux : List Char → List Char → Option (String × List Char)
  | _, [] => none
  | acc, c :: rest =>
    if c == '"' then some (String.mk acc.reverse, rest)
    else if c == '\\' then
      match rest with
      | [] => none
      | e :: rest2 =>
        if e == '"' then parseJStringAux ('"' :: acc) rest2
        else if e == '\\' then parseJStringAux ('\\' :: acc) rest2
        else if e == '/' then parseJStringAux ('/' :: acc) rest2
        else if e == 'b' then parseJStringAux (Char.ofNat 8 :: acc) rest2
        else if e == 'f' then parseJStringAux (Char.ofNat 12 :: acc) rest2
        else if e == 'n' then parseJStringAux ('\n' :: acc) rest2
        else if e == 'r' then parseJStringAux ('\r' :: acc) rest2
        else if e == 't' then parseJStringAux ('\t' :: acc) rest2
        else if e == 'u' then
          match rest2 with
          | h1 :: h2 :: h3 :: h4 :: rest3 =>
            match hexVal h1, hexVal h2, hexVal h3, hexVal h4 with
            | some a, some b, some c2, some d =>
              parseJStringAux (Char.ofNat (a * 4096 + b * 256 + c2 * 16 + d) :: acc) rest3
            | _, _, _, _ => none
          | _ => none
        else none
    else if c.toNat < 32 then none
    else parseJStringAux (c :: acc) rest

/-- Collect a run of leading decimal digits. -/
def takeDigits : List Char → (List Nat × List Char)
  | [] => ([], [])
  | c :: rest =>
    if 48 ≤ c.toNat ∧ c.toNat ≤ 57 then
      let r := takeDigits rest
      ((c.toNat - 48) :: r.1, r.2)
    else ([], c :: rest)

/-- Combine a digit list into a natural number. -/
def digitsToNat (ds : List Nat) : Nat :=
  ds.foldl (fun a d => a * 10 + d) 0

/-- Optional fraction part of a JSON number: `.` must be followed by at
least one digit. -/
def fracPart : List Char → Option (List Nat × List Char)
  | '.' :: rest =>
    let r := takeDigits rest
    if r.1.isEmpty then none else some (r.1, r.2)
  | cs => some ([], cs)

/-- Optional exponent part of a JSON number: `e`/`E`, an optional sign,
then at least one digit.  Returns the signed exponent value. -/
def expPart : List Char → Option (Int × List Char)
  | [] => some (0, [])
  | c :: rest =>
    if c == 'e' || c == 'E' then
      match rest with
      | '+' :: rest2 =>
        let r := takeDigits rest2
        if r.1.isEmpty then none else some (Int.ofNat (digitsToNat r.1), r.2)
      | '-' :: rest2 =>
        let r := takeDigits rest2
        if r.1.isEmpty then none else some (-(Int.ofNat (digitsToNat r.1)), r.2)
      | _ =>
        let r := takeDigits rest
        if r.1.isEmpty then none else some (Int.ofNat (digitsToNat r.1), r.2)
    else some (0, c :: rest)

/-- Fraction/exponent tail shared by both integer-part branches of a JSON
number literal. -/
def parseJNumberTail (neg : Bool) (intDigits : List Nat) (cs2 : List Char) :
    Option (JSVal × List Char) :=
  match fracPart cs2 with
  | none => none
  | some (fds, cs3) =>
    match expPart cs3 with
    | none => none
    | some (ev, cs4) =>
      let mant : Nat := digitsToNat (intDigits ++ fds)
      let m : Int := if neg then -(Int.ofNat mant) else Int.ofNat mant
      some (.vNum m (ev - Int.ofNat fds.length), cs4)

/-- JSON number literal, strict grammar
`-?(0|[1-9][0-9]*)(\.[0-9]+)?([eE][+-]?[0-9]+)?`. -/
def parseJNumber (cs : List Char) : Option (JSVal × List Char) :=
  let (neg, cs1) :=
    match cs with
    | '-' :: rest => (true, rest)
    | _ => (false, cs)
  match cs1 with
  | [] => none
  | c :: rest =>
    if c.toNat = 48 then
      parseJNumberTail neg [0] rest
    else if 49 ≤ c.toNat ∧ c.toNat ≤ 57 then
      let r := takeDigits rest
      parseJNumberTail neg ((c.toNat - 48) :: r.1) r.2
    else none

mutual

/-- One JSON value at the head of the input (no leading whitespace).
`fuel` dominates the length of the remaining input. -/
def parseJValue : Nat → List Char → Option (JSVal × List Char)
  | 0, _ => none
  | _ + 1, [] => none
  | fuel + 1, c :: rest =>
    if c == '"' then
      match parseJStringAux [] rest with
      | some (s, r) => some (.vStr s, r)
      | none => none
    else if c == lbrace then
      match skipJsonWs rest with
      | [] => none
      | d :: r2 =>
        if d == rbrace then some (.vObj [], r2)
        else parseJMembers fuel (d :: r2) []
    else if c == '[' then
      match skipJsonWs rest with
      | [] => none
      | d :: r2 =>
        if d == ']' then some (.vArr [], r2)
        else parseJElems fuel (d :: r2) []
    else if c == 't' then
      match rest with
      | 'r' :: 'u' :: 'e' :: r => some (.vBool true, r)
      | _ => none
    else if c == 'f' then
      match rest with
      | 'a' :: 'l' :: 's' :: 'e' :: r => some (.vBool false, r)
      | _ => none
    else if c == 'n' then
      match rest with
      | 'u' :: 'l' :: 'l' :: r => some (.vNull, r)
      | _ => none
    else parseJNumber (c :: rest)

/-- Members of a JSON object, positioned at the start of a key string. -/
def parseJMembers : Nat → List Char → List (String × JSVal) →
    Option (JSVal × List Char)
  | 0, _, _ => none
  | _ + 1, [], _ => none
  | fuel + 1, c :: rest, acc =>
    if c == '"' then
      match parseJStringAux [] rest with
      | none => none
      | some (key, r1) =>
        match skipJsonWs r1 with
        | ':' :: r3 =>
          match parseJValue fuel (skipJsonWs r3) with
          | none => none
          | some (v, r4) =>
            match skipJsonWs r4 with
            | ',' :: r6 => parseJMembers fuel (skipJsonWs r6) (acc ++ [(key, v)])
            | d :: r6 =>
              if d == rbrace then some (.vObj (acc ++ [(key, v)]), r6) else none
            | [] => none
        | _ => none
    else none

/-- Elements of a JSON array, positioned at the start of a value. -/
def parseJElems : Nat → List Char → List JSVal → Option (JSVal × List Char)
  | 0, _, _ => none
  | fuel + 1, cs, acc =>
    match parseJValue fuel cs with
    | none => none
    | some (v, r1) =>
      match skipJsonWs r1 with
      | ',' :: r2 => parseJElems fuel (skipJsonWs r2) (acc ++ [v])
      | d :: r2 => if d == ']' then some (.vArr (acc ++ [v]), r2) else none
      | [] => none

end

/-- `JSON.parse`: a single JSON value with only whitespace around it,
`none` on any syntax error. -/
def jsonParse (s : String) : Option JSVal :=
  match parseJValue (s.data.length + 1) (skipJsonWs s.data) with
  | some (v, rest) => if (skipJsonWs rest).isEmpty then some v else none
  | none => none

/-- `LLMClient._tryParseJSON` (`api.js`): trim, require the text to start
with an opening and end with a closing brace, then `JSON.parse`, with
`null` on failure. -/
def tryParseJSON (text : String) : Option JSVal :=
  match trimChars text.data with
  | [] => none
  | c :: rest =>
    if c == lbrace && (c :: rest).getLast? == some rbrace then
      jsonParse (String.mk (c :: rest))
    else none

/-- The three-backtick fence marker of a Markdown code block. -/
def fenceMarker : List Char := [btick, btick, btick]

/-- Split the input at the first occurrence of `pat`, returning the text
before it and the text after it; `none` when `pat` does not occur. -/
def splitAtSub (pat : List Char) : List Char → Option (List Char × List Char)
  | [] => if pat.isEmpty then some ([], []) else none
  | c :: rest =>
    if listPrefixOf pat (c :: rest) then some ([], (c :: rest).drop pat.length)
    else
      match splitAtSub pat rest with
      | some (b, a) => some (c :: b, a)
      | none => none

/-- One global-regex step of
`LLMClient._extractJSONCodeBlocks` — the scan for
fenced blocks matching three backticks, an optional case-insensitive
`json` tag, greedy whitespace, then a lazily matched body up to the next
fence.  Empty captures are falsy in the source and are not pushed. -/
def extractBlocksAux : Nat → List Char → List String → List String
  | 0, _, acc => acc
  | fuel + 1, cs, acc =>
    match splitAtSub fenceMarker cs with
    | none => acc
    | some (_, afterOpen) =>
      let afterTag :=
        if (afterOpen.take 4).map lowerChar == ['j', 's', 'o', 'n'] then
          afterOpen.drop 4
        else afterOpen
      let contentStart := afterTag.dropWhile isJsWs
      match splitAtSub fenceMarker contentStart with
      | none => acc
      | some (content, afterClose) =>
        let acc2 :=
          if content.isEmpty then acc
          else acc ++ [jsTrim (String.mk content)]
        extractBlocksAux fuel afterClose acc2

/-- `LLMClient._extractJSONCodeBlocks` (`api.js`). -/
def extractJSONCodeBlocks (s : String) : List String :=
  extractBlocksAux (s.data.length + 1) s.data []

/-- The string-aware brace-depth scan of
`LLMClient._extractJSONObjectCandidates` (`api.js`): `full` is the whole
text (for slicing), the second argument the remaining input, `i` the
current index, then the open-brace start index, in-string and escape
flags, and the accumulated results. -/
def extractObjAux (full : List Char) :
    List Char → Nat → Nat → Option Nat → Bool → Bool → List String → List String
  | [], _, _, _, _, _, results => results
  | c :: rest, i, depth, start, inString, isEscaped, results =>
    if inString then
      if isEscaped then
        extractObjAux full rest (i + 1) depth start true false results
      else if c == '\\' then
        extractObjAux full rest (i + 1) depth start true true results
      else if c == '"' then
        extractObjAux full rest (i + 1) depth start false false results
      else
        extractObjAux full rest (i + 1) depth start true false results
    else if c == '"' then
      extractObjAux full rest (i + 1) depth start true false results
    else if c == lbrace then
      let start2 := if depth = 0 then some i else start
      extractObjAux full rest (i + 1) (depth + 1) start2 false false results
    else if c == rbrace ∧ depth > 0 then
      let depth2 := depth - 1
      match start with
      | some s =>
        if depth2 = 0 then
          extractObjAux full rest (i + 1) depth2 none false false
            (results ++ [jsTrim (String.mk ((full.drop s).take (i + 1 - s)))])
        else
          extractObjAux full rest (i + 1) depth2 (some s) false false results
      | none =>
        extractObjAux full rest (i + 1) depth2 none false false results
    else
      extractObjAux full rest (i + 1) depth start false false results

/-- `LLMClient._extractJSONObjectCandidates` (`api.js`). -/
def extractJSONObjectCandidates (s : String) : List String :=
  extractObjAux s.data s.data 0 0 none false false []

/-- A normalized tool call: trimmed name and its raw arguments value. -/
structure ToolCall where
  name : String
  arguments : JSVal

/-- The `name`/`arguments` selection of `_normalizeToolCall` (`api.js`):
prefer the `tool_call` wrapper when it is a truthy object, otherwise the
direct encoding when `payload.name` is a string. -/
def selectPair (payload : JSVal) : Option (JSVal × JSVal) :=
  if isObjLike (getProp payload "tool_call") then
    some (getProp (getProp payload "tool_call") "name",
      getProp (getProp payload "tool_call") "arguments")
  else
    match getProp payload "name" with
    | .vStr s => some (.vStr s, getProp payload "arguments")
    | _ => none

/-- The final checks of `_normalizeToolCall` (`api.js`): the name must be
a string and non-empty after trimming; arguments are coerced to the
empty object unless they are a plain object. -/
def mkToolCall (nmv args : JSVal) : Option ToolCall :=
  match nmv with
  | .vStr nm =>
    if jsTrim nm = "" then none
    else some ⟨jsTrim nm, if isPlainObj args then args else .vObj []⟩
  | _ => none

/-- `LLMClient._normalizeToolCall` (`api.js`): accepts the
`tool_call` wrapper and direct `name`/`arguments` encodings,
requires a non-empty trimmed name, and coerces non-plain-object
arguments to the empty object. -/
def normalizeToolCall : Option JSVal → Option ToolCall
  | none => none
  | some payload =>
    if isObjLike payload then
      match selectPair payload with
      | some (nmv, args) => mkToolCall nmv args
      | none => none
    else none

/-- Result shape of `LLMClient.parseModelResponse`. -/
structure ParsedResponse where
  assistantMessage : String
  toolCall : Option ToolCall
  rawText : String

/-- The first candidate string (in list order) that parses and
normalizes to a tool call — the early-return loops of
`parseModelResponse`. -/
def firstToolCall : List String → Option ToolCall
  | [] => none
  | c :: rest =>
    match normalizeToolCall (tryParseJSON c) with
    | some tc => some tc
    | none => firstToolCall rest

/-- `LLMClient.parseModelResponse` (`api.js`) on string input (string
inputs are trimmed by `_coerceResponseText`): whole-text JSON first,
then fenced code blocks in order, then embedded brace-balanced
candidates from last to first, otherwise the raw text is the assistant
message. -/
def parseModelResponse (raw : String) : ParsedResponse :=
  let rawText := jsTrim raw
  match normalizeToolCall (tryParseJSON rawText) with
  | some tc => ⟨"", some tc, rawText⟩
  | none =>
    match firstToolCall (extractJSONCodeBlocks rawText) with
    | some tc => ⟨"", some tc, rawText⟩
    | none =>
      match firstToolCall (extractJSONObjectCandidates rawText).reverse with
      | some tc => ⟨"", some tc, rawText⟩
      | none => ⟨rawText, none, rawText⟩

theorem length_dropWhile_le_self (p : Char → Bool) (l : List Char) :
    (List.dropWhile p l).length ≤ l.length := by
  induction l with
  | nil => simp
  | cons a l ih =>
    rw [List.dropWhile_cons]
    by_cases h : p a = true
    · simp only [h, if_true]
      exact Nat.le_succ_of_le ih
    · simp [h]

theorem dropWhile_self_idem (p : Char → Bool) (l : List Char) :
    List.dropWhile p (List.dropWhile p l) = List.dropWhile p l := by
  induction l with
  | nil => rfl
  | cons a l ih =>
    rw [List.dropWhile_cons]
    by_cases h : p a = true
    · simp only [h, if_true]
      exact ih
    · simp [List.dropWhile_cons, h]

theorem dropWhile_eq_self_of_extend (p : Char → Bool) (b : Char) (B t : List Char)
    (h : List.dropWhile p (b :: (B ++ t)) = b :: (B ++ t)) :
    List.dropWhile p (b :: B) = b :: B := by
  have hb : p b = false := by
    by_contra hb
    rw [Bool.not_eq_false] at hb
    rw [List.dropWhile_cons, if_pos hb] at h
    have hlen := congrArg List.length h
    have hle := length_dropWhile_le_self p (B ++ t)
    simp only [List.length_cons] at hlen
    omega
  simp [List.dropWhile_cons, hb]

theorem trimChars_idem (cs : List Char) : trimChars (trimChars cs) = trimChars cs := by
  unfold trimChars
  have hadw : List.dropWhile isJsWs (List.dropWhile isJsWs cs) =
      List.dropWhile isJsWs cs := dropWhile_self_idem isJsWs cs
  have hsplit : List.dropWhile isJsWs cs =
      (List.dropWhile isJsWs (List.dropWhile isJsWs cs).reverse).reverse ++
        (List.takeWhile isJsWs (List.dropWhile isJsWs cs).reverse).reverse := by
    conv_lhs => rw [← List.reverse_reverse (List.dropWhile isJsWs cs),
      ← List.takeWhile_append_dropWhile isJsWs (List.dropWhile isJsWs cs).reverse]
    rw [List.reverse_append]
  have hB : List.dropWhile isJsWs
      (List.dropWhile isJsWs (List.dropWhile isJsWs cs).reverse).reverse =
      (List.dropWhile isJsWs (List.dropWhile isJsWs cs).reverse).reverse := by
    cases hBcase : (List.dropWhile isJsWs (List.dropWhile isJsWs cs).reverse).reverse with
    | nil => rfl
    | cons b B2 =>
      apply dropWhile_eq_self_of_extend isJsWs b B2
        (List.takeWhile isJsWs (List.dropWhile isJsWs cs).reverse).reverse
      rw [← List.cons_append, ← hBcase, ← hsplit]
      exact hadw
  rw [hB, List.reverse_reverse,
    dropWhile_self_idem isJsWs (List.dropWhile isJsWs cs).reverse]

theorem jsTrim_idem (s : String) : jsTrim (jsTrim s) = jsTrim s := by
  simp [jsTrim, trimChars_idem]

theorem firstToolCall_mem (cs : List String) (tc : ToolCall)
    (h : firstToolCall cs = some tc) :
    ∃ s ∈ cs, normalizeToolCall (tryParseJSON s) = some tc := by
  induction cs with
  | nil => simp [firstToolCall] at h
  | cons c rest ih =>
    rw [firstToolCall] at h
    cases hm : normalizeToolCall (tryParseJSON c) with
    | some tc2 =>
      rw [hm] at h
      exact ⟨c, List.mem_cons_self c rest, by rw [hm]; exact h⟩
    | none =>
      rw [hm] at h
      obtain ⟨s, hs, hval⟩ := ih h
      exact ⟨s, List.mem_cons_of_mem c hs, hval⟩

theorem mkToolCall_shape (nmv args : JSVal) (tc : ToolCall)
    (h : mkToolCall nmv args = some tc) :
    tc.name ≠ "" ∧ jsTrim tc.name = tc.name ∧ ∃ fs, tc.arguments = JSVal.vObj fs := by
  match nmv with
  | .vUndefined | .vNull | .vBool _ | .vNum _ _ | .vArr _ | .vObj _ =>
    simp [mkToolCall] at h
  | .vStr nm =>
    rw [mkToolCall] at h
    by_cases hnm : jsTrim nm = ""
    · rw [if_pos hnm] at h; exact absurd h (by simp)
    · rw [if_neg hnm] at h
      have htc := Option.some.inj h
      refine ⟨?_, ?_, ?_⟩
      · rw [← htc]; exact hnm
      · rw [← htc]
        exact jsTrim_idem nm
      · rw [← htc]
        by_cases hpo : isPlainObj args = true
        · match args, hpo with
          | .vObj fs, _ => exact ⟨fs, rfl⟩
        · simp only [if_neg hpo]
          exact ⟨[], rfl⟩

theorem normalizeToolCall_shape (p : Option JSVal) (tc : ToolCall)
    (h : normalizeToolCall p = some tc) :
    tc.name ≠ "" ∧ jsTrim tc.name = tc.name ∧ ∃ fs, tc.arguments = JSVal.vObj fs := by
  match p with
  | none => simp [normalizeToolCall] at h
  | some payload =>
    rw [normalizeToolCall] at h
    by_cases ho : isObjLike payload = true
    · rw [if_pos ho] at h
      match hp : selectPair payload with
      | none => rw [hp] at h; exact absurd h (by simp)
      | some (nmv, args) =>
        rw [hp] at h
        exact mkToolCall_shape nmv args tc h
    · rw [if_neg ho] at h
      exact absurd h (by simp)

theorem parseModelResponse_toolCall_src (raw : String) (tc : ToolCall)
    (h : (parseModelResponse raw).toolCall = some tc) :
    ∃ s, normalizeToolCall (tryParseJSON s) = some tc := by
  rw [parseModelResponse] at h
  cases h1 : normalizeToolCall (tryParseJSON (jsTrim raw)) with
  | some tc1 =>
    rw [h1] at h
    exact ⟨jsTrim raw, by rw [h1]; exact congrArg some (Option.some.inj h)⟩
  | none =>
    rw [h1] at h
    cases h2 : firstToolCall (extractJSONCodeBlocks (jsTrim raw)) with
    | some tc2 =>
      rw [h2] at h
      obtain ⟨s, _, hval⟩ := firstToolCall_mem _ _ h2
      exact ⟨s, by rw [hval]; exact congrArg some (Option.some.inj h)⟩
    | none =>
      rw [h2] at h
      cases h3 : firstToolCall (extractJSONObjectCandidates (jsTrim raw)).reverse with
      | some tc3 =>
        rw [h3] at h
        obtain ⟨s, _, hval⟩ := firstToolCall_mem _ _ h3
        exact ⟨s, by rw [hval]; exact congrArg some (Option.some.inj h)⟩
      | none =>
        rw [h3] at h
        exact absurd h (by simp)

/-- The raw `arguments` value selected by `_normalizeToolCall` before
coercion: from `payload.tool_call.arguments` when `payload.tool_call` is
a truthy object, otherwise from `payload.arguments`. -/
def selectedArgs (p : JSVal) : JSVal :=
  if isObjLike (getProp p "tool_call") then
    getProp (getProp p "tool_call") "arguments"
  else getProp p "arguments"

theorem selectPair_args (p nmv args : JSVal)
    (h : selectPair p = some (nmv, args)) : args = selectedArgs p := by
  rw [selectPair] at h
  rw [selectedArgs]
  by_cases ho : isObjLike (getProp p "tool_call") = true
  · rw [if_pos ho] at h
    rw [if_pos ho]
    exact (congrArg Prod.snd (Option.some.inj h)).symm
  · rw [if_neg ho] at h
    rw [if_neg ho]
    match hn : getProp p "name" with
    | .vStr s =>
      rw [hn] at h
      exact (congrArg Prod.snd (Option.some.inj h)).symm
    | .vUndefined | .vNull | .vBool _ | .vNum _ _ | .vArr _ | .vObj _ =>
      rw [hn] at h
      exact absurd h (by simp)

theorem mkToolCall_args_coerce (nmv args : JSVal) (tc : ToolCall)
    (h : mkToolCall nmv args = some tc) (hp : isPlainObj args = false) :
    tc.arguments = JSVal.vObj [] := by
  match nmv with
  | .vUndefined | .vNull | .vBool _ | .vNum _ _ | .vArr _ | .vObj _ =>
    simp [mkToolCall] at h
  | .vStr nm =>
    rw [mkToolCall] at h
    by_cases hnm : jsTrim nm = ""
    · rw [if_pos hnm] at h
      exact absurd h (by simp)
    · rw [if_neg hnm] at h
      rw [← Option.some.inj h]
      simp [hp]

/-- Claim C5: whenever `parseModelResponse` returns a tool call, the
name is a non-empty string equal to its trimmed form and the arguments
value is a plain object (never an array and never null); moreover the
arguments are normalized to the empty object whenever the payload's
selected arguments value is missing, null, a non-object, or an array. -/
theorem parseModelResponse_toolCall_invariants :
    (∀ raw tc, (parseModelResponse raw).toolCall = some tc →
      tc.name ≠ "" ∧ jsTrim tc.name = tc.name ∧ ∃ fs, tc.arguments = JSVal.vObj fs) ∧
    (∀ p tc, normalizeToolCall (some p) = some tc →
      isPlainObj (selectedArgs p) = false → tc.arguments = JSVal.vObj []) := by
  constructor
  · intro raw tc h
    obtain ⟨s, hs⟩ := parseModelResponse_toolCall_src raw tc h
    exact normalizeToolCall_shape _ tc hs
  · intro p tc h hsel
    rw [normalizeToolCall] at h
    by_cases ho : isObjLike p = true
    · rw [if_pos ho] at h
      match hp : selectPair p with
      | none => rw [hp] at h; exact absurd h (by simp)
      | some (nmv, args) =>
        rw [hp] at h
        have hargs := selectPair_args p nmv args hp
        exact mkToolCall_args_coerce nmv args tc h (by rw [hargs]; exact hsel)
    · rw [if_neg ho] at h
      exact absurd h (by simp)

/-- Payload used by the C5 witness: direct encoding with a padded name
and `null` arguments. -/
def c5payload : JSVal :=
  .vObj [("name", .vStr " x "), ("arguments", .vNull)]

/-- Raw model text for the C5 witness. -/
def c5raw : String := "\x7b\"name\":\" x \",\"arguments\":null\x7d"

theorem parseModelResponse_toolCall_invariants_witness :
    ("x" ≠ "" ∧ jsTrim "x" = "x" ∧ ∃ fs, JSVal.vObj [] = JSVal.vObj fs) ∧
      (ToolCall.mk "x" (JSVal.vObj [])).arguments = JSVal.vObj [] := by
  have h := parseModelResponse_toolCall_invariants
  have h1 : (parseModelResponse c5raw).toolCall = some ⟨"x", .vObj []⟩ := rfl
  have h2 : normalizeToolCall (some c5payload) = some ⟨"x", .vObj []⟩ := rfl
  have h3 : isPlainObj (selectedArgs c5payload) = false := rfl
  exact ⟨h.1 c5raw ⟨"x", .vObj []⟩ h1, h.2 c5payload ⟨"x", .vObj []⟩ h2 h3⟩

theorem normalizeToolCall_none : normalizeToolCall none = none := rfl

/-- Claim C3: for input text that is not wholly a single JSON object and
contains no fenced code block, but contains exactly two top-level
brace-balanced JSON candidates of which only the second normalizes to a
tool call, `parseModelResponse` returns the tool call encoded by the
second candidate — candidates are tried from last to first. -/
theorem parseModelResponse_selects_last_candidate (text a b : String) (tc : ToolCall)
    (h0 : tryParseJSON (jsTrim text) = none)
    (h1 : extractJSONCodeBlocks (jsTrim text) = [])
    (h2 : extractJSONObjectCandidates (jsTrim text) = [a, b])
    (h3 : normalizeToolCall (tryParseJSON a) = none)
    (h4 : normalizeToolCall (tryParseJSON b) = some tc) :
    parseModelResponse text = ⟨"", some tc, jsTrim text⟩ := by
  have hrev : ([a, b] : List String).reverse = [b, a] := by simp
  simp only [parseModelResponse, h0, h1, h2, hrev, normalizeToolCall_none,
    firstToolCall, h3, h4]

/-- Input text for the C3 witness: prose, a first JSON object that is
not a tool call, then a tool-call object. -/
def c3text : String :=
  "First look at \x7b\"ok\":true\x7d and then \x7b\"tool_call\":\x7b\"name\":\"click_element\",\"arguments\":\x7b\"elementId\":\"a1\"\x7d\x7d\x7d now."

/-- The first (non-tool-call) brace-balanced candidate inside `c3text`. -/
def c3first : String := "\x7b\"ok\":true\x7d"

/-- The second (tool-call) brace-balanced candidate inside `c3text`. -/
def c3second : String :=
  "\x7b\"tool_call\":\x7b\"name\":\"click_element\",\"arguments\":\x7b\"elementId\":\"a1\"\x7d\x7d\x7d"

/-- The tool call encoded by `c3second`. -/
def c3toolCall : ToolCall :=
  ⟨"click_element", .vObj [("elementId", .vStr "a1")]⟩

set_option maxRecDepth 100000 in
theorem parseModelResponse_selects_last_candidate_witness :
    parseModelResponse c3text = ⟨"", some c3toolCall, jsTrim c3text⟩ :=
  parseModelResponse_selects_last_candidate c3text c3first c3second c3toolCall
    rfl rfl rfl rfl rfl

/-- The C4 example text: a JSON object whose string value contains brace
characters. -/
def c4text : String :=
  "\x7b\"name\":\"x\",\"arguments\":\x7b\"value\":\"a\x7bb\x7dc\"\x7d\x7d"

/-- The C4 object embedded in surrounding prose, so that the string-aware
candidate scanner (not the whole-text parse) must find its span. -/
def c4embedded : String := "I will call it now: " ++ c4text ++ " and done."

/-- A variant with a backslash-escaped quote before the embedded braces. -/
def c4escaped : String :=
  "x \x7b\"name\":\"x\",\"arguments\":\x7b\"value\":\"a\\\"\x7bb\x7dc\"\x7d\x7d y"

/-- The candidate span the scanner must carve out of `c4escaped`. -/
def c4escapedInner : String :=
  "\x7b\"name\":\"x\",\"arguments\":\x7b\"value\":\"a\\\"\x7bb\x7dc\"\x7d\x7d"

/-- Claim C4: the string-aware scanner identifies the full balanced
object span even when braces occur inside quoted string values
(including behind backslash escapes): the example text parses to the
tool call named `x` with arguments value `a{b}c`, the same object
embedded in prose is carved out whole by `extractJSONObjectCandidates`,
and an escaped-quote variant is likewise scanned and parsed intact. -/
theorem parseModelResponse_string_aware_braces :
    (parseModelResponse c4text).toolCall =
        some ⟨"x", .vObj [("value", .vStr "a\x7bb\x7dc")]⟩ ∧
      extractJSONObjectCandidates c4embedded = [c4text] ∧
      (parseModelResponse c4embedded).toolCall =
        some ⟨"x", .vObj [("value", .vStr "a\x7bb\x7dc")]⟩ ∧
      extractJSONObjectCandidates c4escaped = [c4escapedInner] ∧
      (parseModelResponse c4escaped).toolCall =
        some ⟨"x", .vObj [("value", .vStr "a\"\x7bb\x7dc")]⟩ := by
  set_option maxRecDepth 100000 in
  exact ⟨rfl, rfl, rfl, rfl, rfl⟩

/-- Decimal digit character, as produced by JavaScript number-to-string
conversion inside template literals. -/
def digitChar (n : Nat) : Char := Char.ofNat (48 + n)

/-- Decimal digit string of a natural number (JavaScript template-literal
interpolation of a counter value). -/
def decDigits (n : Nat) : List Char :=
  if n < 10 then [digitChar n]
  else decDigits (n / 10) ++ [digitChar (n % 10)]
decreasing_by exact Nat.div_lt_self (by omega) (by omega)

/-- Decimal value of a digit-character list; left inverse of `decDigits`. -/
def decVal (cs : List Char) : Nat :=
  cs.foldl (fun a c => a * 10 + (c.toNat - 48)) 0

theorem decVal_decDigits (n : Nat) : decVal (decDigits n) = n := by
  induction n using Nat.strong_induction_on with
  | _ n ih =>
    rw [decDigits]
    by_cases h : n < 10
    · rw [if_pos h]
      interval_cases n <;> decide
    · rw [if_neg h]
      have hlt : n / 10 < n := Nat.div_lt_self (by omega) (by omega)
      have hrec := ih (n / 10) hlt
      have hmod : n % 10 < 10 := Nat.mod_lt n (by omega)
      have hd : (digitChar (n % 10)).toNat - 48 = n % 10 := by
        generalize n % 10 = m at hmod
        interval_cases m <;> decide
      calc decVal (decDigits (n / 10) ++ [digitChar (n % 10)])
          = decVal (decDigits (n / 10)) * 10 + ((digitChar (n % 10)).toNat - 48) := by
            simp [decVal, List.foldl_append]
        _ = n / 10 * 10 + (n % 10) := by rw [hrec, hd]
        _ = n := by omega

theorem decDigits_inj (a b : Nat) (h : decDigits a = decDigits b) : a = b := by
  rw [← decVal_decDigits a, h, decVal_decDigits]

/-- Page-lifetime element id: `` `${sidekickSessionPrefix}-${counter}` ``
(`contentScript.js`). -/
def mkId (pref : String) (c : Nat) : String :=
  pref ++ "-" ++ String.mk (decDigits c)

theorem mkId_inj (pref : String) (a b : Nat) (h : mkId pref a = mkId pref b) :
    a = b := by
  apply decDigits_inj
  have hd : (pref.data ++ ['-']) ++ decDigits a = (pref.data ++ ['-']) ++ decDigits b := by
    simpa [mkId, String.data_append, List.append_assoc] using congrArg String.data h
  exact List.append_cancel_left hd

theorem mkId_ne_empty (pref : String) (c : Nat) : mkId pref c ≠ "" := by
  intro h
  have hd := congrArg (fun s => s.data.length) h
  simp [mkId, String.data_append] at hd

/-- The DOM element classes distinguished by the action executor
(`contentScript.js`): the three form-control classes, content-editable
regions, and everything else. -/
inductive ElemKind : Type where
  | inputEl : ElemKind
  | textareaEl : ElemKind
  | selectEl : ElemKind
  | editableEl : ElemKind
  | otherEl : ElemKind
deriving DecidableEq

/-- A DOM element as observed by the page-side script: its class, the
boolean coercion of its `disabled` property, its `value`, its
`textContent`, and the `data-sidekick-element-id` attribute. -/
structure PageElem where
  kind : ElemKind
  disabled : Bool
  value : String
  textContent : String
  sid : Option String
deriving DecidableEq

/-- One page-script instance: the randomized session id run
(`sidekickSessionPrefix`), the monotone counter
(`sidekickElementCounter`), and the interactable elements in document
order. -/
structure PageState where
  pref : String
  counter : Nat
  elements : List PageElem
deriving DecidableEq

/-- Mint a fresh id for element `i` and tag the node with it. -/
def mintAt (st : PageState) (i : Nat) (e : PageElem) : String × PageState :=
  (mkId st.pref (st.counter + 1),
    ⟨st.pref, st.counter + 1,
      st.elements.set i { e with sid := some (mkId st.pref (st.counter + 1)) }⟩)

/-- `ensureElementId` (`contentScript.js`) applied to the element at
index `i`: a truthy existing attribute is returned unchanged, otherwise
a fresh `` `${sessionPrefix}-${++counter}` `` id is minted and stored on
the node. -/
def ensureElementIdAt (st : PageState) (i : Nat) : String × PageState :=
  match st.elements[i]? with
  | none => ("", st)
  | some e =>
    match e.sid with
    | some id => if id = "" then mintAt st i e else (id, st)
    | none => mintAt st i e

/-- The `getInteractableElements().forEach(ensureElementId)` re-tagging
sweep of `findElementBySidekickId`, threaded through the counter. -/
def retagFrom (pref : String) : Nat → List PageElem → Nat × List PageElem
  | counter, [] => (counter, [])
  | counter, e :: rest =>
    match e.sid with
    | some id =>
      if id = "" then
        let r := retagFrom pref (counter + 1) rest
        (r.1, { e with sid := some (mkId pref (counter + 1)) } :: r.2)
      else
        let r := retagFrom pref counter rest
        (r.1, e :: r.2)
    | none =>
      let r := retagFrom pref (counter + 1) rest
      (r.1, { e with sid := some (mkId pref (counter + 1)) } :: r.2)

/-- Re-tag every interactable element, preserving document order. -/
def retagAll (st : PageState) : PageState :=
  ⟨st.pref, (retagFrom st.pref st.counter st.elements).1,
    (retagFrom st.pref st.counter st.elements).2⟩

/-- `findElementBySidekickId` (`contentScript.js`): a falsy id short
circuits to `null` before the re-tagging sweep; otherwise all
interactables are re-tagged and the first element carrying the attribute
is returned (as its index). -/
def findElementBySidekickId (st : PageState) (elementId : String) :
    PageState × Option Nat :=
  if elementId = "" then (st, none)
  else
    (retagAll st,
      (retagAll st).elements.findIdx? (fun e => e.sid == some elementId))

/-- Synthetic notifications dispatched by the action executor:
`new Event("input")`, `new Event("change")`, and the contenteditable
`new InputEvent("input", { data })`. -/
inductive DispatchedEvent : Type where
  | evInput : DispatchedEvent
  | evChange : DispatchedEvent
  | evInputData : String → DispatchedEvent
deriving DecidableEq

/-- Result object of the page-side `fillInput`. -/
structure ActionResult where
  ok : Bool
  elementId : Option String
  value : Option String
  error : Option String
deriving DecidableEq

/-- Outcome of a `fillInput` call: its result object, the page state
afterwards, and the synthetic events dispatched on the element. -/
structure FillOutcome where
  res : ActionResult
  page : PageState
  events : List DispatchedEvent
deriving DecidableEq

/-- The unsupported-target test of `fillInput` (`contentScript.js`):
only input, textarea, select, or content-editable elements pass. -/
def isFillable : ElemKind → Bool
  | .otherEl => false
  | _ => true

/-- The per-class mutation and event synthesis of `fillInput`
(`contentScript.js`): text controls replace or append `value` and get
input+change, selects always assign `value` and get change only,
contenteditable regions replace or append `textContent` and get a
data-carrying input event. -/
def applyFill (e : PageElem) (value : String) (clearFirst : Bool) :
    PageElem × List DispatchedEvent :=
  match e.kind with
  | .inputEl =>
    ({ e with value := if clearFirst then value else e.value ++ value },
      [.evInput, .evChange])
  | .textareaEl =>
    ({ e with value := if clearFirst then value else e.value ++ value },
      [.evInput, .evChange])
  | .selectEl => ({ e with value := value }, [.evChange])
  | .editableEl =>
    ({ e with textContent := if clearFirst then value else e.textContent ++ value },
      [.evInputData value])
  | .otherEl => (e, [])

/-- `fillInput` (`contentScript.js`).  The element focus is a pure UI
effect and is not modelled; everything else is. -/
def fillInput (st : PageState) (elementId value : String) (clearFirst : Bool) :
    FillOutcome :=
  match findElementBySidekickId st elementId with
  | (st2, none) =>
    ⟨⟨false, none, none, some ("Element not found for elementId=" ++ elementId)⟩,
      st2, []⟩
  | (st2, some i) =>
    match st2.elements[i]? with
    | none =>
      ⟨⟨false, none, none, some ("Element not found for elementId=" ++ elementId)⟩,
        st2, []⟩
    | some e =>
      if isFillable e.kind = false then
        ⟨⟨false, none, none, some "Target is not an input-like element"⟩, st2, []⟩
      else if e.disabled then
        ⟨⟨false, none, none, some "Target element is disabled"⟩, st2, []⟩
      else
        ⟨⟨true, some elementId, some value, none⟩,
          ⟨st2.pref, st2.counter, st2.elements.set i (applyFill e value clearFirst).1⟩,
          (applyFill e value clearFirst).2⟩

/-- Page with a single enabled `select` element used by the C8
counterexample. -/
def c8selPage : PageState :=
  ⟨"sk-w", 1, [⟨.selectEl, false, "x", "", some "sk-w-1"⟩]⟩

/-- Claim C8 counterexample: on a `select` element with
`clearFirst = false` the call succeeds, but the value is replaced rather
than appended and only a change notification is dispatched — refuting
the claim's uniform append-when-not-clearFirst and input-and-change
wording. -/
theorem fillInput_select_counterexample :
    (fillInput c8selPage "sk-w-1" "y" false).res.ok = true ∧
      (fillInput c8selPage "sk-w-1" "y" false).page.elements =
        [⟨.selectEl, false, "y", "", some "sk-w-1"⟩] ∧
      (fillInput c8selPage "sk-w-1" "y" false).page.elements ≠
        [⟨.selectEl, false, "x" ++ "y", "", some "sk-w-1"⟩] ∧
      (fillInput c8selPage "sk-w-1" "y" false).events = [.evChange] ∧
      (fillInput c8selPage "sk-w-1" "y" false).events ≠ [.evInput, .evChange] := by
  refine ⟨rfl, rfl, ?_, rfl, ?_⟩ <;> decide

/-- Claim C8 (amended): `fillInput` fails with the element-not-found
error when the id lookup misses; fails with the unsupported-target error
when the resolved node is not an input, textarea, select, or
content-editable element; fails with the disabled error when the
element's `disabled` property is set; otherwise it succeeds after
setting the element and dispatching the per-class notifications — text
controls replace or append the value per `clearFirst` and dispatch input
and change, selects always replace the value regardless of `clearFirst`
and dispatch change only, and content-editable regions replace or append
the text content and dispatch a single text-input notification carrying
the inserted text. -/
theorem fillInput_cases (st : PageState) (elementId value : String)
    (clearFirst : Bool) :
    (∀ st2, findElementBySidekickId st elementId = (st2, none) →
      fillInput st elementId value clearFirst =
        ⟨⟨false, none, none,
          some ("Element not found for elementId=" ++ elementId)⟩, st2, []⟩) ∧
    (∀ st2 i e, findElementBySidekickId st elementId = (st2, some i) →
      st2.elements[i]? = some e →
      ((isFillable e.kind = false →
          fillInput st elementId value clearFirst =
            ⟨⟨false, none, none, some "Target is not an input-like element"⟩,
              st2, []⟩) ∧
        (isFillable e.kind = true → e.disabled = true →
          fillInput st elementId value clearFirst =
            ⟨⟨false, none, none, some "Target element is disabled"⟩, st2, []⟩) ∧
        ((e.kind = .inputEl ∨ e.kind = .textareaEl) → e.disabled = false →
          fillInput st elementId value clearFirst =
            ⟨⟨true, some elementId, some value, none⟩,
              ⟨st2.pref, st2.counter, st2.elements.set i
                { e with value := if clearFirst then value else e.value ++ value }⟩,
              [.evInput, .evChange]⟩) ∧
        (e.kind = .selectEl → e.disabled = false →
          fillInput st elementId value clearFirst =
            ⟨⟨true, some elementId, some value, none⟩,
              ⟨st2.pref, st2.counter,
                st2.elements.set i { e with value := value }⟩,
              [.evChange]⟩) ∧
        (e.kind = .editableEl → e.disabled = false →
          fillInput st elementId value clearFirst =
            ⟨⟨true, some elementId, some value, none⟩,
              ⟨st2.pref, st2.counter, st2.elements.set i
                { e with textContent :=
                  if clearFirst then value else e.textContent ++ value }⟩,
              [.evInputData value]⟩))) := by
  constructor
  · intro st2 hfind
    simp only [fillInput, hfind]
  · intro st2 i e hfind he
    refine ⟨?_, ?_, ?_, ?_, ?_⟩
    · intro hnf
      simp only [fillInput, hfind, he, hnf, if_true]
    · intro hf hd
      simp only [fillInput, hfind, he, hf, hd]
      simp
    · intro hk hd
      cases hk with
      | inl hk => simp only [fillInput, hfind, he, hk, isFillable, applyFill, hd]; simp
      | inr hk => simp only [fillInput, hfind, he, hk, isFillable, applyFill, hd]; simp
    · intro hk hd
      simp only [fillInput, hfind, he, hk, isFillable, applyFill, hd]
      simp
    · intro hk hd
      simp only [fillInput, hfind, he, hk, isFillable, applyFill, hd]
      simp

/-- Page with a single enabled text input used by the C8 witness. -/
def c8wPage : PageState :=
  ⟨"sk-w", 1, [⟨.inputEl, false, "ab", "", some "sk-w-1"⟩]⟩

theorem fillInput_cases_witness :
    fillInput c8wPage "sk-w-1" "cd" false =
      ⟨⟨true, some "sk-w-1", some "cd", none⟩,
        ⟨"sk-w", 1, [⟨.inputEl, false, "abcd", "", some "sk-w-1"⟩]⟩,
        [.evInput, .evChange]⟩ := by
  exact ((fillInput_cases c8wPage "sk-w-1" "cd" false).2 c8wPage 0
    ⟨.inputEl, false, "ab", "", some "sk-w-1"⟩ rfl rfl).2.2.1 (Or.inl rfl) rfl

/-- The page-load invariant of the element registry: every assigned id
was minted by this script instance — the session prefix together with a
counter value between 1 and the current counter — and no two elements
carry the same id. It holds for the fresh state of a new injection
(counter 0, no tags) and is maintained by every mint. -/
def WFPage (st : PageState) : Prop :=
  (∀ i, (hi : i < st.elements.length) → ∀ s, (st.elements[i]).sid = some s →
    s ∈ (List.range st.counter).map (fun k => mkId st.pref (k + 1))) ∧
  (∀ i, (hi : i < st.elements.length) → ∀ j, (hj : j < st.elements.length) →
    ∀ s, (st.elements[i]).sid = some s → (st.elements[j]).sid = some s → i = j)

/-- Claim C9: within one page load `ensureElementId` is idempotent and
injective — calling it twice on the same live node returns the identical
id both times, and calling it on two distinct nodes (the second call on
the state left by the first) never returns the same id; ids are minted
as the session prefix plus a strictly increasing counter and stored on
the node. -/
theorem ensureElementId_idem_inj (st : PageState) (i j : Nat)
    (hwf : WFPage st) (hi : i < st.elements.length)
    (hj : j < st.elements.length) (hij : i ≠ j) :
    (ensureElementIdAt (ensureElementIdAt st i).2 i).1 = (ensureElementIdAt st i).1 ∧
    (ensureElementIdAt (ensureElementIdAt st i).2 j).1 ≠ (ensureElementIdAt st i).1 := by
  obtain ⟨hwf1, hwf2⟩ := hwf
  have hei : st.elements[i]? = some st.elements[i] := List.getElem?_eq_getElem hi
  have hej : st.elements[j]? = some st.elements[j] := List.getElem?_eq_getElem hj
  cases hsid : (st.elements[i]).sid with
  | some s =>
    obtain ⟨k, hkmem, hks⟩ := List.mem_map.mp (hwf1 i hi s hsid)
    have hkc : k < st.counter := List.mem_range.mp hkmem
    have hsne : s ≠ "" := by rw [← hks]; exact mkId_ne_empty _ _
    have h1 : ensureElementIdAt st i = (s, st) := by
      simp only [ensureElementIdAt, hei, hsid]
      rw [if_neg hsne]
    rw [h1]
    constructor
    · show (ensureElementIdAt st i).1 = s
      rw [h1]
    · show (ensureElementIdAt st j).1 ≠ s
      cases hsidj : (st.elements[j]).sid with
      | some s2 =>
        obtain ⟨k2, hk2mem, hk2s⟩ := List.mem_map.mp (hwf1 j hj s2 hsidj)
        have hs2ne : s2 ≠ "" := by rw [← hk2s]; exact mkId_ne_empty _ _
        have h2 : ensureElementIdAt st j = (s2, st) := by
          simp only [ensureElementIdAt, hej, hsidj]
          rw [if_neg hs2ne]
        rw [h2]
        show s2 ≠ s
        intro hcontra
        rw [hcontra] at hsidj
        exact hij (hwf2 i hi j hj s hsid hsidj)
      | none =>
        have h2 : ensureElementIdAt st j = mintAt st j (st.elements[j]) := by
          simp only [ensureElementIdAt, hej, hsidj]
        rw [h2]
        show mkId st.pref (st.counter + 1) ≠ s
        intro hcontra
        rw [← hks] at hcontra
        have := mkId_inj _ _ _ hcontra
        omega
  | none =>
    have h1 : ensureElementIdAt st i = mintAt st i (st.elements[i]) := by
      simp only [ensureElementIdAt, hei, hsid]
    have hid1 : (ensureElementIdAt st i).1 = mkId st.pref (st.counter + 1) := by
      rw [h1]; rfl
    have hset1 : (ensureElementIdAt st i).2.elements =
        st.elements.set i
          { st.elements[i] with sid := some (mkId st.pref (st.counter + 1)) } := by
      rw [h1]; rfl
    have hcnt1 : (ensureElementIdAt st i).2.counter = st.counter + 1 := by
      rw [h1]; rfl
    have hpref1 : (ensureElementIdAt st i).2.pref = st.pref := by
      rw [h1]; rfl
    rw [hid1]
    generalize hst1 : (ensureElementIdAt st i).2 = st1 at hset1 hcnt1 hpref1 ⊢
    constructor
    · have hgeti : st1.elements[i]? =
          some { st.elements[i] with sid := some (mkId st.pref (st.counter + 1)) } := by
        rw [hset1]
        exact List.getElem?_set_self hi
      simp only [ensureElementIdAt, hgeti]
      rw [if_neg (mkId_ne_empty st.pref (st.counter + 1))]
    · have hgetj : st1.elements[j]? = st.elements[j]? := by
        rw [hset1]
        exact List.getElem?_set_ne hij
      cases hsidj : (st.elements[j]).sid with
      | some s2 =>
        obtain ⟨k2, hk2mem, hk2s⟩ := List.mem_map.mp (hwf1 j hj s2 hsidj)
        have hk2c : k2 < st.counter := List.mem_range.mp hk2mem
        have hs2ne : s2 ≠ "" := by rw [← hk2s]; exact mkId_ne_empty _ _
        have h2 : ensureElementIdAt st1 j = (s2, st1) := by
          simp only [ensureElementIdAt, hgetj, hej, hsidj]
          rw [if_neg hs2ne]
        rw [h2]
        show s2 ≠ mkId st.pref (st.counter + 1)
        intro hcontra
        rw [← hk2s] at hcontra
        have := mkId_inj _ _ _ hcontra
        omega
      | none =>
        have h2 : ensureElementIdAt st1 j = mintAt st1 j (st.elements[j]) := by
          simp only [ensureElementIdAt, hgetj, hej, hsidj]
        rw [h2]
        show mkId st1.pref (st1.counter + 1) ≠ mkId st.pref (st.counter + 1)
        rw [hpref1, hcnt1]
        intro hcontra
        have := mkId_inj _ _ _ hcontra
        omega

/-- Freshly injected page with two untagged elements, for the C9 witness. -/
def c9page : PageState :=
  ⟨"sk-a", 0, [⟨.inputEl, false, "", "", none⟩, ⟨.selectEl, false, "", "", none⟩]⟩

theorem ensureElementId_idem_inj_witness :
    (ensureElementIdAt (ensureElementIdAt c9page 0).2 0).1 =
        (ensureElementIdAt c9page 0).1 ∧
      (ensureElementIdAt (ensureElementIdAt c9page 0).2 1).1 ≠
        (ensureElementIdAt c9page 0).1 := by
  have hwf : WFPage c9page := by
    constructor
    · intro i hi s hs
      simp only [c9page, List.length_cons, List.length_nil] at hi
      interval_cases i <;> simp [c9page] at hs
    · intro i hi j hj s hsi hsj
      simp only [c9page, List.length_cons, List.length_nil] at hi hj
      interval_cases i <;> interval_cases j <;> simp [c9page] at hsi hsj ⊢
  exact ensureElementId_idem_inj c9page 0 1 hwf (by decide) (by decide) (by decide)

/-- `normalizeErrorMessage` (`service-worker.js`). -/
def normalizeErrorMessage (msg : String) : String := lowerStr msg

/-- `isMissingReceiverError` (`service-worker.js`). -/
def isMissingReceiverError (msg : String) : Bool :=
  strIncludes (normalizeErrorMessage msg) "receiving end does not exist"

/-- `isPageLifecycleError` (`service-worker.js`). -/
def isPageLifecycleError (msg : String) : Bool :=
  strIncludes (normalizeErrorMessage msg) "moved into back/forward cache" ||
    strIncludes (normalizeErrorMessage msg) "message channel is closed" ||
    strIncludes (normalizeErrorMessage msg) "frame was removed" ||
    strIncludes (normalizeErrorMessage msg) "document unloaded"

/-- A message routed to a tab's content script. -/
structure TabMessage where
  action : String
  elementId : Option String
  value : Option String
  clearFirst : Option Bool
  waitMs : Option JSVal

/-- Outcome of one `chrome.tabs.sendMessage` delivery attempt: either
`chrome.runtime.lastError` with its message, or the page's response. -/
inductive DeliveryOutcome : Type where
  | failure : String → DeliveryOutcome
  | success : JSVal → DeliveryOutcome

/-- The environment behaviour a single routed request can observe: the
outcome of the first delivery, of the script injection, and of the
(single possible) retry delivery. -/
structure TabWorld where
  firstSend : DeliveryOutcome
  injectErr : Option String
  retrySend : DeliveryOutcome

/-- What a routed request did: the response handed to `sendResponse`,
and how many deliveries and script injections were performed. -/
structure RouterResult where
  response : JSVal
  sendCount : Nat
  injectCount : Nat

/-- `retryMessageAfterInjection` (`service-worker.js`): wait for the tab
to stabilize (a pure delay, not modelled), inject the content script,
then retry the delivery exactly once; injection or retry errors are
surfaced as `ok:false`. -/
def retryMessageAfterInjection (w : TabWorld) (transformer : JSVal → JSVal) :
    RouterResult :=
  match w.injectErr with
  | some err => ⟨.vObj [("ok", .vBool false), ("error", .vStr err)], 0, 1⟩
  | none =>
    match w.retrySend with
    | .failure err => ⟨.vObj [("ok", .vBool false), ("error", .vStr err)], 1, 1⟩
    | .success resp =>
      ⟨transformer (if jsTruthy resp then resp else .vObj []), 1, 1⟩

/-- The per-action options of the router. -/
structure RouterOptions where
  allowNavigationSuccess : Bool

/-- The inferred-success response built when a click's channel dies to a
page-lifecycle error (`service-worker.js`). -/
def navigationInferredResponse (message : TabMessage) : JSVal :=
  .vObj [("ok", .vBool true),
    ("elementId", match message.elementId with | some s => .vStr s | none => .vUndefined),
    ("navigated", .vBool true),
    ("info", .vStr "Page transitioned during click; assuming click initiated navigation.")]

/-- `sendMessageToTab` (`service-worker.js`). -/
def sendMessageToTab (tabId : Option Int) (message : TabMessage)
    (transformer : JSVal → JSVal) (options : RouterOptions) (w : TabWorld) :
    RouterResult :=
  match tabId with
  | none => ⟨.vObj [("ok", .vBool false), ("error", .vStr "No target tab available")], 0, 0⟩
  | some _ =>
    match w.firstSend with
    | .success resp => ⟨transformer (if jsTruthy resp then resp else .vObj []), 1, 0⟩
    | .failure rawErr =>
      let errorMessage := if rawErr = "" then "Unknown tab messaging error" else rawErr
      if isMissingReceiverError errorMessage then
        let r := retryMessageAfterInjection w transformer
        ⟨r.response, r.sendCount + 1, r.injectCount⟩
      else if isPageLifecycleError errorMessage then
        if options.allowNavigationSuccess then
          ⟨transformer (navigationInferredResponse message), 1, 0⟩
        else
          let r := retryMessageAfterInjection w transformer
          ⟨r.response, r.sendCount + 1, r.injectCount⟩
      else ⟨.vObj [("ok", .vBool false), ("error", .vStr errorMessage)], 1, 0⟩

/-- `resolveTargetTabId` (`service-worker.js`): the explicit tab id when
given, else the active tab of the current window when one exists. -/
def resolveTargetTabId (requested : Option Int) (activeTab : Option Int) :
    Option Int :=
  match requested with
  | some t => some t
  | none => activeTab

/-- The `executeClickElement` handler (`service-worker.js`): routes a
`clickElement` message with the identity transformer and
`allowNavigationSuccess` enabled. -/
def executeClickElementRoute (requestedTabId activeTab : Option Int)
    (elementId : Option String) (waitMs : Option JSVal) (w : TabWorld) :
    RouterResult :=
  sendMessageToTab (resolveTargetTabId requestedTabId activeTab)
    ⟨"clickElement", elementId, none, none, waitMs⟩ (fun r => r) ⟨true⟩ w

/-- The `requestPageSnapshot` handler (`service-worker.js`): routes a
`getPageSnapshot` message, normalizing the response to
`snapshot: response.snapshot or null`. -/
def requestPageSnapshotRoute (requestedTabId activeTab : Option Int)
    (w : TabWorld) : RouterResult :=
  sendMessageToTab (resolveTargetTabId requestedTabId activeTab)
    ⟨"getPageSnapshot", none, none, none, none⟩
    (fun response =>
      .vObj [("snapshot",
        if jsTruthy (getProp response "snapshot") then getProp response "snapshot"
        else .vNull)])
    ⟨false⟩ w

theorem lifecycle_err_ne_empty (err : String)
    (hlc : isPageLifecycleError err = true) : err ≠ "" := by
  intro h
  rw [h] at hlc
  exact absurd hlc (by decide)

theorem missing_receiver_err_ne_empty (err : String)
    (hmr : isMissingReceiverError err = true) : err ≠ "" := by
  intro h
  rw [h] at hmr
  exact absurd hmr (by decide)

/-- Claim C6: a routed click request whose tab-message delivery fails
with a page-lifecycle error (back/forward cache, closed message channel,
removed frame, unloaded document) resolves to a response with `ok:true`
and `navigated:true`, and the click message is never delivered to the
tab a second time. -/
theorem router_click_lifecycle_inferred_success
    (requestedTabId activeTab : Option Int) (t : Int)
    (elementId : Option String) (waitMs : Option JSVal) (w : TabWorld)
    (err : String)
    (htab : resolveTargetTabId requestedTabId activeTab = some t)
    (hfail : w.firstSend = .failure err)
    (hlc : isPageLifecycleError err = true)
    (hmr : isMissingReceiverError err = false) :
    getProp (executeClickElementRoute requestedTabId activeTab elementId waitMs w).response
        "ok" = .vBool true ∧
      getProp (executeClickElementRoute requestedTabId activeTab elementId waitMs w).response
        "navigated" = .vBool true ∧
      (executeClickElementRoute requestedTabId activeTab elementId waitMs w).sendCount = 1 := by
  have hne : err ≠ "" := lifecycle_err_ne_empty err hlc
  have hres : executeClickElementRoute requestedTabId activeTab elementId waitMs w =
      ⟨navigationInferredResponse ⟨"clickElement", elementId, none, none, waitMs⟩, 1, 0⟩ := by
    rw [executeClickElementRoute, htab]
    simp only [sendMessageToTab, hfail, if_neg hne, hmr, hlc]
    simp
  rw [hres]
  exact ⟨rfl, rfl, rfl⟩

/-- Concrete world for the C6 witness: first delivery dies to a closed
message channel. -/
def c6world : TabWorld :=
  ⟨.failure "The message channel is closed before a response was received.",
    none, .success (.vObj [])⟩

theorem router_click_lifecycle_inferred_success_witness :
    getProp (executeClickElementRoute (some 7) none (some "sk-a-2") none c6world).response
        "ok" = .vBool true ∧
      getProp (executeClickElementRoute (some 7) none (some "sk-a-2") none c6world).response
        "navigated" = .vBool true ∧
      (executeClickElementRoute (some 7) none (some "sk-a-2") none c6world).sendCount = 1 :=
  router_click_lifecycle_inferred_success (some 7) none 7 (some "sk-a-2") none c6world
    "The message channel is closed before a response was received."
    rfl rfl (by decide) (by decide)

/-- Claim C7: a routed request whose delivery fails with a
missing-receiver error performs exactly one content-script injection
followed by exactly one retry delivery before responding; if the retry
also fails the error is surfaced as `ok:false` with the error message —
never more than one retry. -/
theorem router_missing_receiver_single_retry (t : Int) (message : TabMessage)
    (transformer : JSVal → JSVal) (options : RouterOptions) (w : TabWorld)
    (err : String)
    (hfail : w.firstSend = .failure err)
    (hmr : isMissingReceiverError err = true)
    (hinj : w.injectErr = none) :
    (sendMessageToTab (some t) message transformer options w).injectCount = 1 ∧
      (sendMessageToTab (some t) message transformer options w).sendCount = 2 ∧
      (∀ e2, w.retrySend = .failure e2 →
        (sendMessageToTab (some t) message transformer options w).response =
          .vObj [("ok", .vBool false), ("error", .vStr e2)]) := by
  have hne : err ≠ "" := missing_receiver_err_ne_empty err hmr
  have hstep : sendMessageToTab (some t) message transformer options w =
      ⟨(retryMessageAfterInjection w transformer).response,
        (retryMessageAfterInjection w transformer).sendCount + 1,
        (retryMessageAfterInjection w transformer).injectCount⟩ := by
    simp only [sendMessageToTab, hfail, if_neg hne, hmr]
    simp
  rw [hstep]
  rw [retryMessageAfterInjection, hinj]
  cases hretry : w.retrySend with
  | failure e2 =>
    refine ⟨rfl, rfl, ?_⟩
    intro e3 he3
    injection he3 with h
    subst h
    rfl
  | success resp =>
    refine ⟨rfl, rfl, ?_⟩
    intro e3 he3
    simp at he3

/-- Concrete world for the C7 witness: cold tab (no receiver), a
successful injection, and a retry that also fails. -/
def c7world : TabWorld :=
  ⟨.failure "Could not establish connection. Receiving end does not exist.",
    none,
    .failure "Could not establish connection. Receiving end does not exist."⟩

theorem router_missing_receiver_single_retry_witness :
    (requestPageSnapshotRoute (some 3) none c7world).injectCount = 1 ∧
      (requestPageSnapshotRoute (some 3) none c7world).sendCount = 2 ∧
      (requestPageSnapshotRoute (some 3) none c7world).response =
        .vObj [("ok", .vBool false),
          ("error", .vStr "Could not establish connection. Receiving end does not exist.")] := by
  have h := router_missing_receiver_single_retry 3
    ⟨"getPageSnapshot", none, none, none, none⟩
    (fun response =>
      .vObj [("snapshot",
        if jsTruthy (getProp response "snapshot") then getProp response "snapshot"
        else .vNull)])
    ⟨false⟩ c7world
    "Could not establish connection. Receiving end does not exist."
    rfl (by decide) rfl
  exact ⟨h.1, h.2.1,
    h.2.2 "Could not establish connection. Receiving end does not exist." rfl⟩

theorem char_toNat_ofNat_lt (n : Nat) (h : n < 55296) : (Char.ofNat n).toNat = n := by
  have hv : Nat.isValidChar n := Or.inl h
  simp only [Char.ofNat, hv, dif_pos, Char.ofNatAux, Char.toNat]
  exact BitVec.toNat_ofNatLt n _

theorem lowerChar_toNat_of_upper (c : Char) (h : 65 ≤ c.toNat ∧ c.toNat ≤ 90) :
    (lowerChar c).toNat = c.toNat + 32 := by
  rw [lowerChar, if_pos h]
  exact char_toNat_ofNat_lt _ (by omega)

theorem lowerChar_idem (c : Char) : lowerChar (lowerChar c) = lowerChar c := by
  by_cases h : 65 ≤ c.toNat ∧ c.toNat ≤ 90
  · have ht := lowerChar_toNat_of_upper c h
    have hcond : ¬(65 ≤ (lowerChar c).toNat ∧ (lowerChar c).toNat ≤ 90) := by omega
    conv_lhs => rw [lowerChar]
    rw [if_neg hcond]
  · have hc : lowerChar c = c := by rw [lowerChar, if_neg h]
    rw [hc, hc]

theorem isJsWs_lowerChar (c : Char) : isJsWs (lowerChar c) = isJsWs c := by
  by_cases h : 65 ≤ c.toNat ∧ c.toNat ≤ 90
  · have ht := lowerChar_toNat_of_upper c h
    have h1 : isJsWs (lowerChar c) = false := by
      simp only [isJsWs, ht]
      simp only [Bool.or_eq_false_iff, decide_eq_false_iff_not]
      omega
    have h2 : isJsWs c = false := by
      simp only [isJsWs]
      simp only [Bool.or_eq_false_iff, decide_eq_false_iff_not]
      omega
    rw [h1, h2]
  · have hc : lowerChar c = c := by rw [lowerChar, if_neg h]
    rw [hc]

theorem trimChars_map_lowerChar (l : List Char) :
    trimChars (l.map lowerChar) = (trimChars l).map lowerChar := by
  have hws : (isJsWs ∘ lowerChar) = isJsWs := funext fun c => isJsWs_lowerChar c
  simp only [trimChars, List.dropWhile_map, hws, ← List.map_reverse]

theorem lowerStr_idem (s : String) : lowerStr (lowerStr s) = lowerStr s := by
  have hcomp : lowerChar ∘ lowerChar = lowerChar := funext lowerChar_idem
  simp [lowerStr, List.map_map, hcomp]

/-- `normalizeToolName` (`sidepanel.js`): trim, then lowercase. -/
def normalizeToolName (name : String) : String := lowerStr (jsTrim name)

theorem normalizeToolName_idem (name : String) :
    normalizeToolName (normalizeToolName name) = normalizeToolName name := by
  rw [normalizeToolName, normalizeToolName]
  have h1 : jsTrim (lowerStr (jsTrim name)) = lowerStr (jsTrim name) := by
    simp [jsTrim, lowerStr, trimChars_map_lowerChar, trimChars_idem]
  rw [h1, lowerStr_idem]

/-- An `ElementDescriptor` as produced by `buildElementSnapshot`
(`contentScript.js`). -/
structure ElementDescriptor where
  elementId : String
  tag : String
  type : String
  role : String
  label : String
  name : String
  placeholder : String
  href : String
  value : String
  checked : Bool
  disabled : Bool
  visible : Bool
  x : Int
  y : Int
  width : Int
  height : Int

/-- A `PageSnapshot` as produced by `getPageSnapshot`
(`contentScript.js`). -/
structure PageSnapshot where
  url : String
  title : String
  pageText : String
  interactables : List ElementDescriptor
  generatedAt : Nat

/-- The result object a tool execution hands back to the agent loop
(`executeToolCall` in `sidepanel.js` and the routed page results). -/
structure ToolExecResult where
  ok : Bool
  toolName : Option String
  snapshot : Option PageSnapshot
  targetTabId : Option JSVal
  elementId : Option String
  value : Option String
  error : Option String

/-- `typeof v === "number"`. -/
def isNumVal : JSVal → Bool
  | .vNum _ _ => true
  | _ => false

/-- `v === false`. -/
def isFalseVal : JSVal → Bool
  | .vBool false => true
  | _ => false

/-- `resolveToolTabId` (`sidepanel.js`): an explicit numeric `tabId`
argument wins, else the first selected tab id when numeric, else the
sidepanel's current tab id when numeric, else null. -/
def resolveToolTabId (toolArgs : JSVal) (selectedTabIds : List JSVal)
    (currentTabId : JSVal) : JSVal :=
  if isNumVal (getProp toolArgs "tabId") then getProp toolArgs "tabId"
  else
    match selectedTabIds with
    | first :: _ =>
      if isNumVal first then first
      else if isNumVal currentTabId then currentTabId
      else .vNull
    | [] => if isNumVal currentTabId then currentTabId else .vNull

/-- Decimal rendering of an integer (JavaScript number-to-string on the
integral values exercised here). -/
def renderInt (i : Int) : String :=
  (if i < 0 then "-" else "") ++ String.mk (decDigits i.natAbs)

/-- Number-to-string coercion; exact decimal rendering of non-integral
or exponent-carrying values is abstracted as mantissa`e`exponent, a
corner no claim exercises. -/
def renderNum (m e : Int) : String :=
  if e = 0 then renderInt m else renderInt m ++ "e" ++ renderInt e

mutual

/-- JavaScript `String(v)` string coercion. -/
def jsToStr : JSVal → String
  | .vUndefined => "undefined"
  | .vNull => "null"
  | .vBool b => if b then "true" else "false"
  | .vNum m e => renderNum m e
  | .vStr s => s
  | .vArr xs => jsToStrList xs
  | .vObj _ => "[object Object]"

/-- Array elements join with commas; null and undefined render empty. -/
def jsToStrList : List JSVal → String
  | [] => ""
  | [x] =>
    match x with
    | .vUndefined => ""
    | .vNull => ""
    | v => jsToStr v
  | x :: xs =>
    (match x with
      | .vUndefined => ""
      | .vNull => ""
      | v => jsToStr v) ++ "," ++ jsToStrList xs

end

/-- The `typeof value === "string" ? value : String(value ?? "")`
coercion of `executeToolCall` (`sidepanel.js`). -/
def coerceArgString : JSVal → String
  | .vStr s => s
  | .vUndefined => ""
  | .vNull => ""
  | v => jsToStr v

/-- The `pageContentManager` boundary as observed by `executeToolCall`:
each method crosses the tab-routing layer, so its behaviour is an
environment oracle. -/
structure PCMOracle where
  fetchSnapshot : JSVal → Option PageSnapshot
  fillInputCall : JSVal → String → String → Bool → ToolExecResult
  clickElementCall : JSVal → String → Option JSVal → ToolExecResult

/-- A record of a tab-contacting `pageContentManager` call made by a
dispatch. -/
inductive OracleCall : Type where
  | snapCall : JSVal → OracleCall
  | fillCall : JSVal → String → String → Bool → OracleCall
  | clickCall : JSVal → String → Option JSVal → OracleCall

/-- `executeToolCall` (`sidepanel.js`): normalize the tool name, coerce
the arguments, resolve the target tab, and dispatch on the normalized
name (with the `page_snapshot`, `fillinput` and `click` aliases); any
other name fails with the unsupported-tool error without contacting any
tab.  Returns the result together with the tab-contacting calls made. -/
def executeToolCall (o : PCMOracle) (selectedTabIds : List JSVal)
    (currentTabId : JSVal) (toolCall : ToolCall) :
    ToolExecResult × List OracleCall :=
  let toolName := normalizeToolName toolCall.name
  let toolArgs := if isObjLike toolCall.arguments then toolCall.arguments else .vObj []
  let targetTabId := resolveToolTabId toolArgs selectedTabIds currentTabId
  if toolName = "get_page_snapshot" ∨ toolName = "page_snapshot" then
    match o.fetchSnapshot targetTabId with
    | some snap =>
      (⟨true, some toolName, some snap, some targetTabId, none, none, none⟩,
        [.snapCall targetTabId])
    | none =>
      (⟨false, some toolName, none, some targetTabId, none, none,
        some "Snapshot was empty"⟩, [.snapCall targetTabId])
  else if toolName = "fill_input" ∨ toolName = "fillinput" then
    let elementId := match getProp toolArgs "elementId" with | .vStr s => s | _ => ""
    let value := coerceArgString (getProp toolArgs "value")
    let clearFirst := !(isFalseVal (getProp toolArgs "clearFirst"))
    if elementId = "" then
      (⟨false, some toolName, none, none, none, none,
        some "fill_input requires elementId"⟩, [])
    else
      (o.fillInputCall targetTabId elementId value clearFirst,
        [.fillCall targetTabId elementId value clearFirst])
  else if toolName = "click_element" ∨ toolName = "click" then
    let elementId := match getProp toolArgs "elementId" with | .vStr s => s | _ => ""
    let waitMs :=
      if isNumVal (getProp toolArgs "waitMs") then some (getProp toolArgs "waitMs")
      else none
    if elementId = "" then
      (⟨false, some toolName, none, none, none, none,
        some "click_element requires elementId"⟩, [])
    else
      (o.clickElementCall targetTabId elementId waitMs,
        [.clickCall targetTabId elementId waitMs])
  else
    (⟨false, some toolName, none, none, none, none,
      some ("Unsupported tool: " ++
        (if toolCall.name = "" then "unknown" else toolCall.name))⟩, [])

/-- `formatToolExecutionMessage` (`sidepanel.js`). -/
def formatToolExecutionMessage (toolCall : ToolCall)
    (toolResult : ToolExecResult) : String :=
  let toolName := if toolCall.name = "" then "unknown_tool" else toolCall.name
  if toolResult.ok = false then
    "Tool call failed for " ++ toolName ++ ": " ++
      (match toolResult.error with
        | some e => if e = "" then "Unknown error" else e
        | none => "Unknown error")
  else
    let normalizedName := normalizeToolName toolName
    if normalizedName = "get_page_snapshot" ∨ normalizedName = "page_snapshot" then
      "Captured page snapshot successfully (" ++
        String.mk (decDigits
          (match toolResult.snapshot with
            | some snap => snap.interactables.length
            | none => 0)) ++ " interactable elements)."
    else if normalizedName = "fill_input" ∨ normalizedName = "fillinput" then
      "Filled input for elementId=" ++
        (match toolResult.elementId with
          | some s => if s = "" then "unknown" else s
          | none => "unknown") ++ "."
    else if normalizedName = "click_element" ∨ normalizedName = "click" then
      "Clicked elementId=" ++
        (match toolResult.elementId with
          | some s => if s = "" then "unknown" else s
          | none => "unknown") ++ "."
    else "Tool " ++ toolName ++ " executed successfully."

/-- `const maxToolSteps = 5` (`sidepanel.js`, `getLLMResponse`). -/
def maxToolSteps : Nat := 5

/-- The terminal step-limit message of `getLLMResponse`
(`sidepanel.js`). -/
def stepLimitMessage : String :=
  "Reached the tool execution limit before finishing. Try again with a narrower request."

/-- One entry of `toolExecutionHistory` (`sidepanel.js`). -/
structure StepRecord where
  toolCall : ToolCall
  toolResult : ToolExecResult
  toolMessage : String

/-- How a turn of `getLLMResponse` ends: a final assistant answer, an
immediate stop on a failed tool execution, or the step-limit message. -/
inductive LoopEnd : Type where
  | finalAnswer : String → LoopEnd
  | toolFailure : String → LoopEnd
  | stepLimit : String → LoopEnd

/-- Observable trace of one `getLLMResponse` turn: how many model calls
were made, the accumulated tool-execution history, and the displayed
terminal message. -/
structure LoopTrace where
  modelCalls : Nat
  history : List StepRecord
  ending : LoopEnd

/-- The body of the `for (let step = 0; step <= maxToolSteps; step++)`
loop of `getLLMResponse` (`sidepanel.js`), with `fuel = maxToolSteps -
step` so the source's `step === maxToolSteps` limit test is `fuel = 0`.
The model endpoint and the tool executor are environment oracles indexed
by the loop step (each iteration makes exactly one model call, so the
step doubles as the model-call index); snapshot refresh, the settle
delay and the continuation-prompt construction do not affect the
observable trace and are abstracted into the oracles. -/
def loopGo (model : Nat → String) (exec : Nat → ToolCall → ToolExecResult) :
    Nat → Nat → List StepRecord → LoopTrace
  | fuel, step, history =>
    let llmResponse := model step
    let parsed := parseModelResponse llmResponse
    match parsed.toolCall with
    | none =>
      ⟨step + 1, history,
        .finalAnswer
          (if parsed.assistantMessage = "" then llmResponse
            else parsed.assistantMessage)⟩
    | some tc =>
      let toolResult := exec step tc
      let toolMessage := formatToolExecutionMessage tc toolResult
      let history2 := history ++ [⟨tc, toolResult, toolMessage⟩]
      if toolResult.ok = false then ⟨step + 1, history2, .toolFailure toolMessage⟩
      else
        match fuel with
        | 0 => ⟨step + 1, history2, .stepLimit stepLimitMessage⟩
        | fuel2 + 1 => loopGo model exec fuel2 (step + 1) history2

/-- `getLLMResponse` (`sidepanel.js`) as its observable turn trace. -/
def getLLMResponseTrace (model : Nat → String)
    (exec : Nat → ToolCall → ToolExecResult) : LoopTrace :=
  loopGo model exec maxToolSteps 0 []

theorem loopGo_all_ok (model : Nat → String)
    (exec : Nat → ToolCall → ToolExecResult)
    (hm : ∀ k, ((parseModelResponse (model k)).toolCall).isSome = true)
    (he : ∀ k tc, (exec k tc).ok = true) :
    ∀ fuel step history,
      (loopGo model exec fuel step history).ending = .stepLimit stepLimitMessage ∧
        (loopGo model exec fuel step history).modelCalls = step + fuel + 1 ∧
        (loopGo model exec fuel step history).history.length =
          history.length + fuel + 1 := by
  intro fuel
  induction fuel with
  | zero =>
    intro step history
    obtain ⟨tc, htc⟩ := Option.isSome_iff_exists.mp (hm step)
    rw [loopGo, htc]
    simp only [he step tc, Bool.true_eq_false, if_false]
    refine ⟨by simp, by simp, by simp⟩
  | succ fuel2 ih =>
    intro step history
    obtain ⟨tc, htc⟩ := Option.isSome_iff_exists.mp (hm step)
    rw [loopGo, htc]
    simp only [he step tc, Bool.true_eq_false, if_false]
    have hih := ih (step + 1)
      (history ++ [⟨tc, exec step tc, formatToolExecutionMessage tc (exec step tc)⟩])
    refine ⟨hih.1, ?_, ?_⟩
    · rw [hih.2.1]
      omega
    · rw [hih.2.2]
      simp only [List.length_append, List.length_cons, List.length_nil]
      omega

/-- Claim C1: for every model that returns a tool call on every call,
with every tool execution succeeding, the agent loop terminates with the
explicit step-limit message after exactly `maxToolSteps + 1 = 6` model
calls, and never executes a further tool call beyond that bound (the
history holds exactly 6 executions and nothing follows the limit
message). -/
theorem agent_loop_step_limit (model : Nat → String)
    (exec : Nat → ToolCall → ToolExecResult)
    (hm : ∀ k, ((parseModelResponse (model k)).toolCall).isSome = true)
    (he : ∀ k tc, (exec k tc).ok = true) :
    (getLLMResponseTrace model exec).ending = .stepLimit stepLimitMessage ∧
      (getLLMResponseTrace model exec).modelCalls = maxToolSteps + 1 ∧
      (getLLMResponseTrace model exec).modelCalls = 6 ∧
      (getLLMResponseTrace model exec).history.length = 6 := by
  have h := loopGo_all_ok model exec hm he maxToolSteps 0 []
  exact ⟨h.1, h.2.1, h.2.1, h.2.2⟩

/-- Model oracle for the C1 witness: always requests a snapshot. -/
def c1model : Nat → String :=
  fun _ => "\x7b\"tool_call\":\x7b\"name\":\"get_page_snapshot\",\"arguments\":\x7b\x7d\x7d\x7d"

/-- Tool executor for the C1 witness: always succeeds. -/
def c1exec : Nat → ToolCall → ToolExecResult :=
  fun _ _ => ⟨true, none, none, none, none, none, none⟩

set_option maxRecDepth 100000 in
theorem agent_loop_step_limit_witness :
    (getLLMResponseTrace c1model c1exec).ending = .stepLimit stepLimitMessage ∧
      (getLLMResponseTrace c1model c1exec).modelCalls = maxToolSteps + 1 ∧
      (getLLMResponseTrace c1model c1exec).modelCalls = 6 ∧
      (getLLMResponseTrace c1model c1exec).history.length = 6 :=
  agent_loop_step_limit c1model c1exec (fun _ => rfl) (fun _ _ => rfl)

theorem loopGo_fail_at (model : Nat → String)
    (exec : Nat → ToolCall → ToolExecResult) (j : Nat) (tcj : ToolCall)
    (hparse : (parseModelResponse (model j)).toolCall = some tcj)
    (hfail : (exec j tcj).ok = false) :
    ∀ fuel step history, step + fuel = maxToolSteps → step ≤ j →
      j ≤ maxToolSteps →
      (∀ k, step ≤ k → k < j →
        ∃ tc, (parseModelResponse (model k)).toolCall = some tc ∧
          (exec k tc).ok = true) →
      (loopGo model exec fuel step history).ending =
          .toolFailure (formatToolExecutionMessage tcj (exec j tcj)) ∧
        (loopGo model exec fuel step history).modelCalls = j + 1 := by
  intro fuel
  induction fuel with
  | zero =>
    intro step history hsum hstep hjmax hall
    have hsj : step = j := by
      rw [maxToolSteps] at hsum hjmax
      omega
    subst hsj
    rw [loopGo, hparse]
    simp only [hfail, if_true]
    exact ⟨trivial, trivial⟩
  | succ fuel2 ih =>
    intro step history hsum hstep hjmax hall
    by_cases hsj : step = j
    · subst hsj
      rw [loopGo, hparse]
      simp only [hfail, if_true]
      exact ⟨trivial, trivial⟩
    · have hlt : step < j := by omega
      obtain ⟨tc, htc, hok⟩ := hall step (Nat.le_refl step) hlt
      rw [loopGo, htc]
      simp only [hok, Bool.true_eq_false, if_false]
      exact ih (step + 1)
        (history ++ [⟨tc, exec step tc, formatToolExecutionMessage tc (exec step tc)⟩])
        (by omega) (by omega) hjmax
        (fun k hk1 hk2 => hall k (by omega) hk2)

/-- Claim C2: for every turn in which the j-th tool execution returns
`ok:false` (all earlier steps having parsed tool calls and succeeded),
the agent loop stops immediately: the displayed assistant message equals
the formatted failure message produced by `formatToolExecutionMessage`,
and no further model call occurs in that turn (exactly `j + 1` model
calls). -/
theorem agent_loop_stops_on_tool_failure (model : Nat → String)
    (exec : Nat → ToolCall → ToolExecResult) (j : Nat) (tcj : ToolCall)
    (hj : j ≤ maxToolSteps)
    (hprev : ∀ k, k < j →
      ∃ tc, (parseModelResponse (model k)).toolCall = some tc ∧
        (exec k tc).ok = true)
    (hparse : (parseModelResponse (model j)).toolCall = some tcj)
    (hfail : (exec j tcj).ok = false) :
    (getLLMResponseTrace model exec).ending =
        .toolFailure (formatToolExecutionMessage tcj (exec j tcj)) ∧
      (getLLMResponseTrace model exec).modelCalls = j + 1 :=
  loopGo_fail_at model exec j tcj hparse hfail maxToolSteps 0 [] rfl
    (Nat.zero_le j) hj (fun k _ hk2 => hprev k hk2)

/-- Model oracle for the C2 witness: always requests a click. -/
def c2model : Nat → String :=
  fun _ => "\x7b\"name\":\"click_element\",\"arguments\":\x7b\"elementId\":\"zz\"\x7d\x7d"

/-- Tool executor for the C2 witness: the first execution fails. -/
def c2exec : Nat → ToolCall → ToolExecResult :=
  fun _ _ => ⟨false, none, none, none, none, none,
    some "Element not found for elementId=zz"⟩

set_option maxRecDepth 100000 in
theorem agent_loop_stops_on_tool_failure_witness :
    (getLLMResponseTrace c2model c2exec).ending =
        .toolFailure "Tool call failed for click_element: Element not found for elementId=zz" ∧
      (getLLMResponseTrace c2model c2exec).modelCalls = 1 := by
  have h := agent_loop_stops_on_tool_failure c2model c2exec 0
    ⟨"click_element", .vObj [("elementId", .vStr "zz")]⟩
    (by rw [maxToolSteps]; omega)
    (fun k hk => absurd hk (Nat.not_lt_zero k)) rfl rfl
  exact h

/-- The six normalized names accepted by the dispatch switch of
`executeToolCall` (`sidepanel.js`). -/
def acceptedToolNames : List String :=
  ["get_page_snapshot", "page_snapshot", "fill_input", "fillinput",
    "click_element", "click"]

/-- Strip the dispatch-added tool-name label, for comparing alias
dispatches whose results differ only in that label. -/
def resultSansToolName (r : ToolExecResult) : ToolExecResult :=
  { r with toolName := none }

/-- Claim C10: the tool dispatch matches names case-insensitively after
trimming (dispatching a name is the same as dispatching its normalized
form whenever the normalized form is accepted); the aliases
`page_snapshot`, `fillinput` and `click` dispatch identically to
`get_page_snapshot`, `fill_input` and `click_element` (same tab contacts
and same result up to the reported tool-name label); and every name
outside the six normalized forms yields `ok:false` with the
unsupported-tool error, contacting no tab. -/
theorem executeToolCall_dispatch :
    (∀ o sel cur args name, normalizeToolName name ∈ acceptedToolNames →
      executeToolCall o sel cur ⟨name, args⟩ =
        executeToolCall o sel cur ⟨normalizeToolName name, args⟩) ∧
    (∀ o sel cur args,
      (resultSansToolName (executeToolCall o sel cur ⟨"page_snapshot", args⟩).1 =
          resultSansToolName (executeToolCall o sel cur ⟨"get_page_snapshot", args⟩).1 ∧
        (executeToolCall o sel cur ⟨"page_snapshot", args⟩).2 =
          (executeToolCall o sel cur ⟨"get_page_snapshot", args⟩).2) ∧
      (resultSansToolName (executeToolCall o sel cur ⟨"fillinput", args⟩).1 =
          resultSansToolName (executeToolCall o sel cur ⟨"fill_input", args⟩).1 ∧
        (executeToolCall o sel cur ⟨"fillinput", args⟩).2 =
          (executeToolCall o sel cur ⟨"fill_input", args⟩).2) ∧
      (resultSansToolName (executeToolCall o sel cur ⟨"click", args⟩).1 =
          resultSansToolName (executeToolCall o sel cur ⟨"click_element", args⟩).1 ∧
        (executeToolCall o sel cur ⟨"click", args⟩).2 =
          (executeToolCall o sel cur ⟨"click_element", args⟩).2)) ∧
    (∀ o sel cur tc, normalizeToolName tc.name ∉ acceptedToolNames →
      executeToolCall o sel cur tc =
        (⟨false, some (normalizeToolName tc.name), none, none, none, none,
          some ("Unsupported tool: " ++
            (if tc.name = "" then "unknown" else tc.name))⟩, [])) := by
  have e1 : normalizeToolName "page_snapshot" = "page_snapshot" := rfl
  have e2 : normalizeToolName "get_page_snapshot" = "get_page_snapshot" := rfl
  have e3 : normalizeToolName "fillinput" = "fillinput" := rfl
  have e4 : normalizeToolName "fill_input" = "fill_input" := rfl
  have e5 : normalizeToolName "click" = "click" := rfl
  have e6 : normalizeToolName "click_element" = "click_element" := rfl
  refine ⟨?_, ?_, ?_⟩
  · intro o sel cur args name hmem
    have hidem := normalizeToolName_idem name
    simp only [acceptedToolNames, List.mem_cons, List.not_mem_nil, or_false] at hmem
    rcases hmem with h | h | h | h | h | h <;>
      simp only [executeToolCall, hidem, h, e1, e2, e3, e4, e5, e6] <;> simp
  · intro o sel cur args
    have n1 : ¬(("fillinput" : String) = "get_page_snapshot" ∨
        ("fillinput" : String) = "page_snapshot") := by decide
    have n2 : ¬(("fill_input" : String) = "get_page_snapshot" ∨
        ("fill_input" : String) = "page_snapshot") := by decide
    have n3 : ¬(("click" : String) = "get_page_snapshot" ∨
        ("click" : String) = "page_snapshot") := by decide
    have n4 : ¬(("click_element" : String) = "get_page_snapshot" ∨
        ("click_element" : String) = "page_snapshot") := by decide
    have n5 : ¬(("click" : String) = "fill_input" ∨
        ("click" : String) = "fillinput") := by decide
    have n6 : ¬(("click_element" : String) = "fill_input" ∨
        ("click_element" : String) = "fillinput") := by decide
    refine ⟨⟨?_, ?_⟩, ⟨?_, ?_⟩, ⟨?_, ?_⟩⟩
    · simp only [executeToolCall, e1, e2]
      rw [if_pos (Or.inr trivial), if_pos (Or.inl trivial)]
      cases o.fetchSnapshot
        (resolveToolTabId (if isObjLike args = true then args else .vObj [])
          sel cur) <;> rfl
    · simp only [executeToolCall, e1, e2]
      rw [if_pos (Or.inr trivial), if_pos (Or.inl trivial)]
      cases o.fetchSnapshot
        (resolveToolTabId (if isObjLike args = true then args else .vObj [])
          sel cur) <;> rfl
    · simp only [executeToolCall, e3, e4]
      rw [if_neg n1, if_pos (Or.inr trivial), if_neg n2, if_pos (Or.inl trivial)]
      split <;> split <;> simp_all [resultSansToolName]
    · simp only [executeToolCall, e3, e4]
      rw [if_neg n1, if_pos (Or.inr trivial), if_neg n2, if_pos (Or.inl trivial)]
      split <;> split <;> simp_all [resultSansToolName]
    · simp only [executeToolCall, e5, e6]
      rw [if_neg n3, if_neg n5, if_pos (Or.inr trivial),
        if_neg n4, if_neg n6, if_pos (Or.inl trivial)]
      split <;> split <;> simp_all [resultSansToolName]
    · simp only [executeToolCall, e5, e6]
      rw [if_neg n3, if_neg n5, if_pos (Or.inr trivial),
        if_neg n4, if_neg n6, if_pos (Or.inl trivial)]
      split <;> split <;> simp_all [resultSansToolName]
  · intro o sel cur tc hmem
    simp only [acceptedToolNames, List.mem_cons, List.not_mem_nil, or_false,
      not_or] at hmem
    obtain ⟨h1, h2, h3, h4, h5, h6⟩ := hmem
    simp only [executeToolCall]
    rw [if_neg (not_or.mpr ⟨h1, h2⟩), if_neg (not_or.mpr ⟨h3, h4⟩),
      if_neg (not_or.mpr ⟨h5, h6⟩)]

/-- Concrete `pageContentManager` oracle for the C10 witness. -/
def c10oracle : PCMOracle :=
  ⟨fun _ => none,
    fun _ _ _ _ => ⟨true, none, none, none, none, none, none⟩,
    fun _ _ _ => ⟨true, none, none, none, none, none, none⟩⟩

set_option maxRecDepth 100000 in
theorem executeToolCall_dispatch_witness :
    executeToolCall c10oracle [] .vNull ⟨" CLICK_Element ", .vObj []⟩ =
        executeToolCall c10oracle [] .vNull ⟨"click_element", .vObj []⟩ ∧
      resultSansToolName
          (executeToolCall c10oracle [] .vNull ⟨"page_snapshot", .vObj []⟩).1 =
        resultSansToolName
          (executeToolCall c10oracle [] .vNull ⟨"get_page_snapshot", .vObj []⟩).1 ∧
      executeToolCall c10oracle [] .vNull ⟨"scroll_page", .vObj []⟩ =
        (⟨false, some "scroll_page", none, none, none, none,
          some "Unsupported tool: scroll_page"⟩, []) := by
  have h := executeToolCall_dispatch
  refine ⟨?_, ?_, ?_⟩
  · exact h.1 c10oracle [] .vNull (.vObj []) " CLICK_Element " (by decide)
  · exact (h.2.1 c10oracle [] .vNull (.vObj [])).1.1
  · exact h.2.2 c10oracle [] .vNull ⟨"scroll_page", .vObj []⟩ (by decide)
